import Mathlib

/-!
Shallow embedding of the e-commerce admin backend: the tRPC product router
(`productRouter`) over its Prisma-backed relational store, and the image-upload
URL-rewriting handlers of the `AddProduct` form component.

The store is modelled as explicit lists of rows; Prisma's `update({where: {id}})`
(which throws when no row matches) and `findUniqueOrThrow` become
`Option`-returning functions. Decimal values produced by JavaScript's
`parseFloat` are modelled as `Option ℚ` (`none` plays the role of `NaN`).
-/

namespace ECommerce

/-- Accumulator-based parse of a maximal run of decimal digits: returns the
value of the digits read so far, how many digits were consumed, and the rest. -/
def parseDigitsAux : List Char → Nat → Nat → Nat × Nat × List Char
  | [], acc, n => (acc, n, [])
  | c :: cs, acc, n =>
    if c.isDigit then parseDigitsAux cs (10 * acc + (c.toNat - 48)) (n + 1)
    else (acc, n, c :: cs)

/-- JavaScript `parseFloat`, modelled shallowly over exact rationals: skip
leading whitespace, optional sign, integer digits, optional fractional part;
`none` models `NaN` (no numeric prefix at all). -/
def parseFloat (s : String) : Option ℚ :=
  let cs := s.data.dropWhile (fun c => c.isWhitespace)
  let signed : Int × List Char :=
    match cs with
    | '-' :: rest => (-1, rest)
    | '+' :: rest => (1, rest)
    | _ => (1, cs)
  let ipart := parseDigitsAux signed.2 0 0
  match ipart.2.2 with
  | '.' :: rest =>
    let fpart := parseDigitsAux rest 0 0
    if ipart.2.1 = 0 ∧ fpart.2.1 = 0 then none
    else some (signed.1 * ((ipart.1 : ℚ) + (fpart.1 : ℚ) / (10 ^ fpart.2.1)))
  | _ => if ipart.2.1 = 0 then none else some (signed.1 * (ipart.1 : ℚ))

/-- An `Image` row: owned by exactly one product. -/
structure Image where
  id : String
  src : String
  alt : String
deriving Repr, DecidableEq

/-- A `Variant` row: a named sub-option of a product with its own image;
`productId` is the owning product's foreign key. -/
structure Variant where
  id : String
  name : String
  imageSrc : String
  vType : String
  productId : String
deriving Repr, DecidableEq

/-- A `Product` row together with its owned image collection and its
category memberships (the many-to-many join, kept on the product side). -/
structure Product where
  id : String
  name : String
  price : Option ℚ
  weight : Option ℚ
  description : String
  isActive : Bool
  createdAt : Nat
  images : List Image
  categoryIds : List String
deriving Repr, DecidableEq

/-- A `Category` row. -/
structure Category where
  id : String
  name : String
  isActive : Bool
deriving Repr, DecidableEq

/-- A `Settings` row: a generic key/value pair keyed by unique `name`. -/
structure Setting where
  name : String
  value : String
deriving Repr, DecidableEq

/-- The relational store: product rows (with owned images and category
memberships), the variant table, category rows and settings rows.
`nextId` generates fresh row ids. -/
structure Store where
  products : List Product
  variants : List Variant
  categories : List Category
  settings : List Setting
  nextId : Nat
deriving Repr

/-- Prisma `product.findUnique` / `findUniqueOrThrow` on the id column. -/
def findProduct (s : Store) (pid : String) : Option Product :=
  s.products.find? (fun p => p.id == pid)

/-- Prisma `category.findUniqueOrThrow` on the id column. -/
def findCategory (s : Store) (cid : String) : Option Category :=
  s.categories.find? (fun c => c.id == cid)

/-- Prisma `product.update(\x7bwhere: \x7bid\x7d, data\x7d)`: throws
(`none`) when no row matches, otherwise rewrites the matching row with `f`. -/
def updateWhereId (s : Store) (pid : String) (f : Product → Product) : Option Store :=
  match s.products.find? (fun p => p.id == pid) with
  | none => none
  | some _ =>
    some { s with products := s.products.map (fun p => if p.id == pid then f p else p) }

/-- Prisma `category.update(\x7bwhere: \x7bid\x7d, data\x7d)`. -/
def updateCategoryWhereId (s : Store) (cid : String) (f : Category → Category) :
    Option Store :=
  match s.categories.find? (fun c => c.id == cid) with
  | none => none
  | some _ =>
    some { s with categories := s.categories.map (fun c => if c.id == cid then f c else c) }

/-- Insertion step for the `orderBy createdAt desc` sort. -/
def insertByCreatedAtDesc (p : Product) : List Product → List Product
  | [] => [p]
  | q :: qs =>
    if q.createdAt ≤ p.createdAt then p :: q :: qs
    else q :: insertByCreatedAtDesc p qs

/-- The `orderBy: \x7bcreatedAt: 'desc'\x7d` clause used by the list queries. -/
def orderByCreatedAtDesc (ps : List Product) : List Product :=
  ps.foldr insertByCreatedAtDesc []

/-- Router query `getActiveProducts`: active products, newest first, with
images and categories included (both are intrinsic to the `Product` record
here). -/
def getActiveProducts (s : Store) : List Product :=
  orderByCreatedAtDesc (s.products.filter (fun p => p.isActive))

/-- Router query `getActiveProductsByCategory`: the sentinel id `"all"` takes
the first branch (all active products); any other id filters by category
membership (`categories: \x7bsome: \x7bid\x7d\x7d`). -/
def getActiveProductsByCategory (s : Store) (cid : String) : List Product :=
  if cid == "all" then
    orderByCreatedAtDesc (s.products.filter (fun p => p.isActive))
  else
    orderByCreatedAtDesc
      (s.products.filter (fun p => p.isActive && p.categoryIds.contains cid))

/-- Router mutation `toggleStatus`: `findUniqueOrThrow` the product, then
update `isActive` to `false` when it is active and to `true` otherwise;
the value returned to the caller is the record fetched BEFORE the update. -/
def toggleStatus (s : Store) (pid : String) : Option (Store × Product) :=
  match findProduct s pid with
  | none => none
  | some product =>
    if product.isActive then
      (updateWhereId s pid (fun p => { p with isActive := false })).map
        (fun s1 => (s1, product))
    else
      (updateWhereId s pid (fun p => { p with isActive := true })).map
        (fun s1 => (s1, product))

/-- Router mutation `toggleCategoryStatus`: same shape as `toggleStatus`, on
the category table. -/
def toggleCategoryStatus (s : Store) (cid : String) : Option (Store × Category) :=
  match findCategory s cid with
  | none => none
  | some category =>
    if category.isActive then
      (updateCategoryWhereId s cid (fun c => { c with isActive := false })).map
        (fun s1 => (s1, category))
    else
      (updateCategoryWhereId s cid (fun c => { c with isActive := true })).map
        (fun s1 => (s1, category))

/-- The `ProductInput` shape of the `addProduct` mutation: an image entry
carries only its `src`. -/
structure ImageIn where
  src : String
deriving Repr, DecidableEq

/-- A variant entry of the `ProductInput` shape. -/
structure VariantIn where
  name : String
  imageSrc : String
deriving Repr, DecidableEq

/-- The `ProductInput` shape: name, price and weight as strings, description,
image list and variant list. -/
structure ProductIn where
  name : String
  price : String
  weight : String
  description : String
  image : List ImageIn
  variant : List VariantIn
deriving Repr, DecidableEq

/-- The nested `images.createMany` rows of `addProduct`: one image row per
input entry, `src` from the entry, `alt` set to the product's input name;
row ids are store-generated. -/
def mkImageRows (pid : String) (productName : String) :
    Nat → List ImageIn → List Image
  | _, [] => []
  | k, im :: ims =>
    Image.mk (pid ++ "/img/" ++ toString k) im.src productName
      :: mkImageRows pid productName (k + 1) ims

/-- The nested `variants.createMany` rows of `addProduct`: one variant row per
input entry, `type` fixed to `"color"`, owned by the new product. -/
def mkVariantRows (pid : String) : Nat → List VariantIn → List Variant
  | _, [] => []
  | k, v :: vs =>
    Variant.mk (pid ++ "/var/" ++ toString k) v.name v.imageSrc "color" pid
      :: mkVariantRows pid (k + 1) vs

/-- Router mutation `addProduct`: one `product.create` with nested
`images.createMany` and `variants.createMany`; price and weight are
`parseFloat` of the input strings. `now` is the row's `createdAt` timestamp
and `isActive` starts from the schema default. -/
def addProduct (s : Store) (i : ProductIn) (now : Nat) : Store :=
  let pid := toString s.nextId
  { s with
    products :=
      { id := pid
        name := i.name
        price := parseFloat i.price
        weight := parseFloat i.weight
        description := i.description
        isActive := true
        createdAt := now
        images := mkImageRows pid i.name 0 i.image
        categoryIds := [] } :: s.products
    variants := s.variants ++ mkVariantRows pid 0 i.variant
    nextId := s.nextId + 1 }

/-- The `UpdateProductInput` shape of the `updateProduct` mutation. -/
structure UpdateProductIn where
  id : String
  name : String
  price : String
  weight : String
  description : String
deriving Repr, DecidableEq

/-- Router mutation `updateProduct`: a single `product.update` writing only
the scalar columns name, price, weight, description (price and weight
re-parsed from strings). -/
def updateProduct (s : Store) (i : UpdateProductIn) : Option Store :=
  updateWhereId s i.id (fun p =>
    { p with
      name := i.name
      price := parseFloat i.price
      weight := parseFloat i.weight
      description := i.description })

/-- The first `product.update` of `attachProductToCategory` (also the whole of
`removeAllCategories`): `categories: \x7bset: []\x7d` clears every membership
of the product. -/
def removeAllCategories (s : Store) (pid : String) : Option Store :=
  updateWhereId s pid (fun p => { p with categoryIds := [] })

/-- The second `product.update` of `attachProductToCategory`:
`categories: \x7bconnect: \x7bid\x7d\x7d` attaches one category; connecting a
category id with no row throws, and connecting an already-attached category
is a no-op. -/
def connectCategory (s : Store) (pid cid : String) : Option Store :=
  match findCategory s cid with
  | none => none
  | some _ =>
    updateWhereId s pid (fun p =>
      if p.categoryIds.contains cid then p
      else { p with categoryIds := p.categoryIds ++ [cid] })

/-- Router mutation `attachProductToCategory`: clear all memberships, then
connect exactly the one requested category. -/
def attachProductToCategory (s : Store) (pid cid : String) : Option Store :=
  (removeAllCategories s pid).bind (fun s1 => connectCategory s1 pid cid)

/-- One entry of the batched `addVariant` mutation input. -/
structure VariantEntry where
  id : String
  name : String
  imageSrc : String
  add : Bool
  productId : String
deriving Repr, DecidableEq

/-- One iteration of `addVariant`'s `forEach`: with the `add` flag a
`variant.create` (type fixed to `"color"`), otherwise a `variant.update` by
variant id whose failure (no matching row) affects this entry alone —
the other iterations still run and their writes stand. -/
def applyVariantEntry (s : Store) (e : VariantEntry) : Store :=
  if e.add then
    { s with
      variants :=
        s.variants ++ [Variant.mk (toString s.nextId) e.name e.imageSrc "color" e.productId]
      nextId := s.nextId + 1 }
  else if s.variants.any (fun v => v.id == e.id) then
    { s with
      variants := s.variants.map (fun v =>
        if v.id == e.id then { v with name := e.name, imageSrc := e.imageSrc } else v) }
  else s

/-- Router mutation `addVariant`: each batch entry is processed independently,
with no rollback or cross-entry atomicity. -/
def addVariant (s : Store) (es : List VariantEntry) : Store :=
  es.foldl applyVariantEntry s

/-- Prisma `settings.findUnique(\x7bwhere: \x7bname\x7d\x7d)`. -/
def settingsFindUnique (s : Store) (key : String) : Option Setting :=
  s.settings.find? (fun x => x.name == key)

/-- Router query `getBannerText`: the settings lookup for the `"banner"` key
runs inside try/catch, so a store-level failure (`Except.error`) is swallowed
and `null` returned; on success the row (or `null` when absent) is returned. -/
def getBannerText (lookup : Except String (Option Setting)) : Option Setting :=
  match lookup with
  | Except.ok row => row
  | Except.error _ => none

/-! Form component `AddProduct`: the upload-then-rewrite handlers. Each
uploaded file yields a URL from object storage; the handlers rewrite its
storage host to the CDN host by literal first-occurrence string substitution
(JavaScript `String.prototype.replace` with string arguments) before writing
it into the form. Uploads themselves are external: a handler takes the list
of URLs the storage service returned, one per selected file. -/

/-- The fixed storage domain of the S3 bucket. -/
def storageHost : String := "https://hustlermy-dev.s3.ap-southeast-1.amazonaws.com"

/-- The fixed CDN domain substituted for the storage domain. -/
def cdnHost : String := "https://d1sah57fmj9klu.cloudfront.net"

/-- JavaScript `s.replace(pat, rep)` with string arguments: replace the first
occurrence of `pat`, leaving `s` unchanged when `pat` never occurs. -/
def replaceFirst (s pat rep : List Char) : List Char :=
  match s with
  | [] => if pat.isEmpty then rep else []
  | c :: cs =>
    if pat.isPrefixOf (c :: cs) then rep ++ (c :: cs).drop pat.length
    else c :: replaceFirst cs pat rep

/-- The CDN rewrite applied to every uploaded URL:
`url.replace(storageHost, cdnHost)`. -/
def cdnRewrite (url : String) : String :=
  String.mk (replaceFirst url.data storageHost.data cdnHost.data)

/-- Handler `onProductImageChange`: every file of the selection is uploaded in
sequence, each returned URL is CDN-rewritten, and the form's `image` field is
set to the accumulated list (replacing the previous value). -/
def onProductImageChange (uploadedUrls : List String) : List ImageIn :=
  uploadedUrls.map (fun u => ImageIn.mk (cdnRewrite u))

/-- Handler `handleAddMoreImages`: reads `files[0]` of the new selection,
uploads it, CDN-rewrites the returned URL, and appends the result to the
current `image` field value (`[...images, \x7bsrc\x7d]`); with an empty
selection nothing happens. -/
def handleAddMoreImages (current : List ImageIn) (uploadedUrls : List String) :
    List ImageIn :=
  match uploadedUrls with
  | [] => current
  | u :: _ => current ++ [ImageIn.mk (cdnRewrite u)]

/-- Index update of the form's variant array, used by `setValue` on
`variant.index.imageSrc`. -/
def setVariantImage : List VariantIn → Nat → String → List VariantIn
  | [], _, _ => []
  | v :: vs, 0, u => { v with imageSrc := u } :: vs
  | v :: vs, n + 1, u => v :: setVariantImage vs n u

/-- Handler `onVariantImageChange`: uploads the single selected file and writes
the CDN-rewritten URL into `variant.index.imageSrc`. -/
def onVariantImageChange (vars : List VariantIn) (index : Nat) (uploadedUrl : String) :
    List VariantIn :=
  setVariantImage vars index (cdnRewrite uploadedUrl)

/-! Helper lemmas about the store primitives. -/

/-- Mapping an id-preserving rewrite over the rows commutes with `find?` on
the id column (product table). -/
theorem find?_map_update_product (l : List Product) (pid : String)
    (f : Product → Product) (hf : ∀ q, (f q).id = q.id) :
    (l.map (fun q => if q.id == pid then f q else q)).find? (fun q => q.id == pid)
      = (l.find? (fun q => q.id == pid)).map f := by
  induction l with
  | nil => rfl
  | cons a l ih =>
    cases hb : (a.id == pid) with
    | false =>
      simp only [List.map_cons, List.find?_cons, hb, Bool.false_eq_true, if_false]
      exact ih
    | true =>
      simp only [List.map_cons, List.find?_cons, hb, if_true]
      have hfa : ((f a).id == pid) = true := by simp [hf a, hb]
      rw [hfa]
      rfl

/-- Mapping an id-preserving rewrite over the rows commutes with `find?` on
the id column (category table). -/
theorem find?_map_update_category (l : List Category) (cid : String)
    (f : Category → Category) (hf : ∀ c, (f c).id = c.id) :
    (l.map (fun c => if c.id == cid then f c else c)).find? (fun c => c.id == cid)
      = (l.find? (fun c => c.id == cid)).map f := by
  induction l with
  | nil => rfl
  | cons a l ih =>
    cases hb : (a.id == cid) with
    | false =>
      simp only [List.map_cons, List.find?_cons, hb, Bool.false_eq_true, if_false]
      exact ih
    | true =>
      simp only [List.map_cons, List.find?_cons, hb, if_true]
      have hfa : ((f a).id == cid) = true := by simp [hf a, hb]
      rw [hfa]
      rfl

/-- Characterisation of a successful `product.update(\x7bwhere: \x7bid\x7d\x7d)`:
it succeeds exactly on the found row, rewrites that row with `f`, and leaves
every other table of the store untouched. -/
theorem updateWhereId_spec (s : Store) (pid : String) (f : Product → Product)
    (hf : ∀ q, (f q).id = q.id) (p : Product) (h : findProduct s pid = some p) :
    ∃ s1, updateWhereId s pid f = some s1
      ∧ findProduct s1 pid = some (f p)
      ∧ s1.products = s.products.map (fun q => if q.id == pid then f q else q)
      ∧ s1.variants = s.variants
      ∧ s1.categories = s.categories
      ∧ s1.settings = s.settings := by
  unfold findProduct at h
  refine ⟨{ s with products := s.products.map (fun q => if q.id == pid then f q else q) },
    ?_, ?_, rfl, rfl, rfl, rfl⟩
  · unfold updateWhereId
    rw [h]
  · show (s.products.map (fun q => if q.id == pid then f q else q)).find?
        (fun q => q.id == pid) = some (f p)
    rw [find?_map_update_product s.products pid f hf, h]
    rfl

/-- Characterisation of a successful `category.update(\x7bwhere: \x7bid\x7d\x7d)`. -/
theorem updateCategoryWhereId_spec (s : Store) (cid : String)
    (f : Category → Category) (hf : ∀ c, (f c).id = c.id) (c : Category)
    (h : findCategory s cid = some c) :
    ∃ s1, updateCategoryWhereId s cid f = some s1
      ∧ findCategory s1 cid = some (f c)
      ∧ s1.products = s.products
      ∧ s1.variants = s.variants
      ∧ s1.settings = s.settings := by
  unfold findCategory at h
  refine ⟨{ s with categories := s.categories.map (fun x => if x.id == cid then f x else x) },
    ?_, ?_, rfl, rfl, rfl⟩
  · unfold updateCategoryWhereId
    rw [h]
  · show (s.categories.map (fun x => if x.id == cid then f x else x)).find?
        (fun x => x.id == cid) = some (f c)
    rw [find?_map_update_category s.categories cid f hf, h]
    rfl

/-- Unfolding of `toggleStatus` on a found product: both branches of the
if/else update `isActive` to the negation of the fetched value, and the
fetched (pre-update) record is what the mutation returns. -/
theorem toggleStatus_eq (s : Store) (pid : String) (p : Product)
    (h : findProduct s pid = some p) :
    ∃ s1, toggleStatus s pid = some (s1, p)
      ∧ findProduct s1 pid = some { p with isActive := !p.isActive }
      ∧ s1.variants = s.variants
      ∧ s1.categories = s.categories := by
  cases hA : p.isActive with
  | false =>
    obtain ⟨s1, hu, hfind, _, hvar, hcat, _⟩ :=
      updateWhereId_spec s pid (fun q => { q with isActive := true })
        (fun q => rfl) p h
    refine ⟨s1, ?_, ?_, hvar, hcat⟩
    · simp [toggleStatus, h, hA, hu]
    · rw [hfind]
      rfl
  | true =>
    obtain ⟨s1, hu, hfind, _, hvar, hcat, _⟩ :=
      updateWhereId_spec s pid (fun q => { q with isActive := false })
        (fun q => rfl) p h
    refine ⟨s1, ?_, ?_, hvar, hcat⟩
    · simp [toggleStatus, h, hA, hu]
    · rw [hfind]
      rfl

/-- Unfolding of `toggleCategoryStatus` on a found category. -/
theorem toggleCategoryStatus_eq (s : Store) (cid : String) (c : Category)
    (h : findCategory s cid = some c) :
    ∃ s1, toggleCategoryStatus s cid = some (s1, c)
      ∧ findCategory s1 cid = some { c with isActive := !c.isActive } := by
  cases hA : c.isActive with
  | false =>
    obtain ⟨s1, hu, hfind, _, _, _⟩ :=
      updateCategoryWhereId_spec s cid (fun x => { x with isActive := true })
        (fun x => rfl) c h
    refine ⟨s1, ?_, ?_⟩
    · simp [toggleCategoryStatus, h, hA, hu]
    · rw [hfind]
      rfl
  | true =>
    obtain ⟨s1, hu, hfind, _, _, _⟩ :=
      updateCategoryWhereId_spec s cid (fun x => { x with isActive := false })
        (fun x => rfl) c h
    refine ⟨s1, ?_, ?_⟩
    · simp [toggleCategoryStatus, h, hA, hu]
    · rw [hfind]
      rfl

/-- Projection of the generated image rows: sources come from the input
entries in order and every `alt` is the product name. -/
theorem mkImageRows_proj (pid productName : String) (k : Nat) (ims : List ImageIn) :
    (mkImageRows pid productName k ims).map (fun im => (im.src, im.alt))
      = ims.map (fun im => (im.src, productName)) := by
  induction ims generalizing k with
  | nil => rfl
  | cons im ims ih => simp [mkImageRows, ih]

/-- Projection of the generated variant rows: names and image sources come
from the input entries in order, the type is fixed to `"color"`, and every
row is owned by the new product. -/
theorem mkVariantRows_proj (pid : String) (k : Nat) (vs : List VariantIn) :
    (mkVariantRows pid k vs).map (fun v => (v.name, v.imageSrc, v.vType, v.productId))
      = vs.map (fun v => (v.name, v.imageSrc, "color", pid)) := by
  induction vs generalizing k with
  | nil => rfl
  | cons v vs ih => simp [mkVariantRows, ih]

/-- JavaScript `replace` on a string that starts with the pattern substitutes
the leading occurrence. -/
theorem replaceFirst_append (pat t rep : List Char) (hne : pat ≠ []) :
    replaceFirst (pat ++ t) pat rep = rep ++ t := by
  cases pat with
  | nil => exact absurd rfl hne
  | cons c pre =>
    show replaceFirst (c :: (pre ++ t)) (c :: pre) rep = rep ++ t
    have hpre : (c :: pre).isPrefixOf (c :: (pre ++ t)) = true := by
      rw [List.isPrefixOf_iff_prefix]
      exact List.prefix_append (c :: pre) t
    unfold replaceFirst
    rw [if_pos hpre]
    show rep ++ ((c :: pre) ++ t).drop (c :: pre).length = rep ++ t
    rw [List.drop_left]

/-- The storage host never occurs as a prefix of a CDN-rewritten URL: the two
hosts already disagree within their first 37 characters. -/
theorem storageHost_not_prefix_cdn_append (t : List Char) :
    ¬ storageHost.data <+: cdnHost.data ++ t := by
  intro h
  obtain ⟨r, hr⟩ := h
  have h37 : (storageHost.data ++ r).take 37 = (cdnHost.data ++ t).take 37 := by
    rw [hr]
  rw [List.take_append_of_le_length (by decide),
    List.take_append_of_le_length (by decide)] at h37
  exact absurd h37 (by decide)

/-- A URL under the storage domain is rewritten to one under the CDN domain:
the result starts with the CDN host and no longer starts with (or contains a
prefix occurrence of) the storage host. -/
theorem cdnRewrite_spec (u : String) (h : storageHost.data <+: u.data) :
    cdnHost.data <+: (cdnRewrite u).data
    ∧ ¬ storageHost.data <+: (cdnRewrite u).data := by
  obtain ⟨t, ht⟩ := h
  have hdata : (cdnRewrite u).data = cdnHost.data ++ t := by
    show (String.mk (replaceFirst u.data storageHost.data cdnHost.data)).data
        = cdnHost.data ++ t
    rw [← ht]
    exact replaceFirst_append _ _ _ (by decide)
  rw [hdata]
  exact ⟨List.prefix_append _ _, storageHost_not_prefix_cdn_append t⟩

/-- Membership after the indexed form write: every entry of the written
variant array is an untouched original entry or carries the written URL. -/
theorem setVariantImage_mem (vs : List VariantIn) (n : Nat) (u : String) :
    ∀ v ∈ setVariantImage vs n u, v ∈ vs ∨ v.imageSrc = u := by
  induction vs generalizing n with
  | nil => intro v hv; exact absurd hv (by simp [setVariantImage])
  | cons w ws ih =>
    intro v hv
    cases n with
    | zero =>
      rcases (List.mem_cons).mp hv with h0 | h0
      · right
        rw [h0]
      · left
        exact List.mem_cons_of_mem _ h0
    | succ m =>
      rcases (List.mem_cons).mp hv with h0 | h0
      · left
        rw [h0]
        exact List.mem_cons_self _ _
      · rcases ih m v h0 with h1 | h1
        · exact Or.inl (List.mem_cons_of_mem _ h1)
        · exact Or.inr h1

/-! Concrete rows and a concrete store, used to instantiate the theorems that
carry hypotheses. -/

/-- A concrete active product attached to category `"c1"`. -/
def sampleProduct1 : Product :=
  { id := "p1", name := "Mug", price := none, weight := none,
    description := "a mug", isActive := true, createdAt := 5,
    images := [⟨"i1", "https://d1sah57fmj9klu.cloudfront.net/mug.png", "Mug"⟩],
    categoryIds := ["c1"] }

/-- A concrete category. -/
def sampleCategory1 : Category := { id := "c1", name := "Kitchen", isActive := true }

/-- A second concrete category, initially not attached to any product. -/
def sampleCategory2 : Category := { id := "c2", name := "Gifts", isActive := false }

/-- A concrete variant row owned by `sampleProduct1`. -/
def sampleVariant1 : Variant :=
  { id := "v1", name := "Red", imageSrc := "https://d1sah57fmj9klu.cloudfront.net/red.png",
    vType := "color", productId := "p1" }

/-- A concrete store holding the sample rows. -/
def sampleStore : Store :=
  { products := [sampleProduct1],
    variants := [sampleVariant1],
    categories := [sampleCategory1, sampleCategory2],
    settings := [⟨"banner", "free shipping"⟩],
    nextId := 100 }

/-- A concrete URL as returned by the storage service for a first file. -/
def uploadedA : String :=
  "https://hustlermy-dev.s3.ap-southeast-1.amazonaws.com/a.png"

/-- A concrete URL as returned by the storage service for a second file. -/
def uploadedB : String :=
  "https://hustlermy-dev.s3.ap-southeast-1.amazonaws.com/b.png"

/-! The claims. -/

/-- C1: for every create-product input, `addProduct` persists in one
operation a product whose price and weight are the numeric parse of the
input strings, whose image rows are exactly the input image list with `alt`
set to the product name, and whose variant rows are exactly the input
variant list with type fixed to `"color"`. -/
theorem addProduct_creates_product_with_rows (s : Store) (i : ProductIn) (now : Nat) :
    ∃ p : Product,
      (addProduct s i now).products = p :: s.products
      ∧ p.name = i.name
      ∧ p.price = parseFloat i.price
      ∧ p.weight = parseFloat i.weight
      ∧ p.description = i.description
      ∧ p.images.map (fun im => (im.src, im.alt))
          = i.image.map (fun im => (im.src, i.name))
      ∧ (addProduct s i now).variants.take s.variants.length = s.variants
      ∧ ((addProduct s i now).variants.drop s.variants.length).map
            (fun v => (v.name, v.imageSrc, v.vType, v.productId))
          = i.variant.map (fun v => (v.name, v.imageSrc, "color", p.id)) := by
  refine ⟨_, rfl, rfl, rfl, rfl, rfl, mkImageRows_proj _ _ _ _, ?_, ?_⟩
  · show (s.variants ++ mkVariantRows (toString s.nextId) 0 i.variant).take
        s.variants.length = s.variants
    rw [List.take_left]
  · show ((s.variants ++ mkVariantRows (toString s.nextId) 0 i.variant).drop
        s.variants.length).map (fun v => (v.name, v.imageSrc, v.vType, v.productId))
      = i.variant.map (fun v => (v.name, v.imageSrc, "color", toString s.nextId))
    rw [List.drop_left]
    exact mkVariantRows_proj _ _ _

/-- C2: attaching any existing product to any existing category first clears
all of the product's category memberships and then attaches exactly the one
requested category, so whatever was attached before (category A included),
the membership afterwards contains only the new category B. -/
theorem attachProductToCategory_singleton (s : Store) (pid cid : String)
    (p : Product) (c : Category)
    (hp : findProduct s pid = some p) (hc : findCategory s cid = some c) :
    ∃ s1, attachProductToCategory s pid cid = some s1
      ∧ (findProduct s1 pid).map Product.categoryIds = some [cid] := by
  obtain ⟨s1, hu1, hfind1, _, _, hcat1, _⟩ :=
    updateWhereId_spec s pid (fun q => { q with categoryIds := [] })
      (fun q => rfl) p hp
  have hc1 : findCategory s1 cid = some c := by
    unfold findCategory at hc ⊢
    rw [hcat1, hc]
  obtain ⟨s2, hu2, hfind2, _, _, _, _⟩ :=
    updateWhereId_spec s1 pid
      (fun q => if q.categoryIds.contains cid then q
        else { q with categoryIds := q.categoryIds ++ [cid] })
      (fun q => by dsimp only; split <;> rfl)
      _ hfind1
  refine ⟨s2, ?_, ?_⟩
  · show (removeAllCategories s pid).bind (fun t => connectCategory t pid cid) = some s2
    unfold removeAllCategories
    rw [hu1]
    show connectCategory s1 pid cid = some s2
    unfold connectCategory
    rw [hc1]
    exact hu2
  · rw [hfind2]
    rfl

/-- C3: the list-active-products-by-category query with the sentinel id
`"all"` returns exactly the list (same filter, same includes, same ordering)
of the list-active-products query. -/
theorem byCategory_all_eq_getActiveProducts (s : Store) :
    getActiveProductsByCategory s "all" = getActiveProducts s := by
  simp [getActiveProductsByCategory, getActiveProducts]

/-- C4: on any product id present in the store, toggling the status twice in
succession restores the product's original `isActive` value. -/
theorem toggleStatus_twice_restores (s : Store) (pid : String) (p : Product)
    (h : findProduct s pid = some p) :
    ∃ s1 r1 s2 r2,
      toggleStatus s pid = some (s1, r1)
      ∧ toggleStatus s1 pid = some (s2, r2)
      ∧ (findProduct s2 pid).map Product.isActive = some p.isActive := by
  obtain ⟨s1, ht1, hf1, _, _⟩ := toggleStatus_eq s pid p h
  obtain ⟨s2, ht2, hf2, _, _⟩ := toggleStatus_eq s1 pid _ hf1
  refine ⟨s1, p, s2, _, ht1, ht2, ?_⟩
  rw [hf2]
  simp

/-- C5: on any existing product, `updateProduct` rewrites only the scalar
columns name, price, weight and description (price and weight re-parsed from
the input strings); the product's images, category memberships and `isActive`
flag keep their values, and the variant table is untouched. -/
theorem updateProduct_scalar_only (s : Store) (i : UpdateProductIn) (p : Product)
    (h : findProduct s i.id = some p) :
    ∃ s1 q, updateProduct s i = some s1
      ∧ findProduct s1 i.id = some q
      ∧ q.name = i.name
      ∧ q.price = parseFloat i.price
      ∧ q.weight = parseFloat i.weight
      ∧ q.description = i.description
      ∧ q.images = p.images
      ∧ q.categoryIds = p.categoryIds
      ∧ q.isActive = p.isActive
      ∧ s1.variants = s.variants := by
  obtain ⟨s1, hu, hfind, _, hvar, _, _⟩ :=
    updateWhereId_spec s i.id
      (fun q =>
        { q with
          name := i.name
          price := parseFloat i.price
          weight := parseFloat i.weight
          description := i.description })
      (fun q => rfl) p h
  exact ⟨s1, _, hu, hfind, rfl, rfl, rfl, rfl, rfl, rfl, rfl, hvar⟩

/-- C6: under the assumption that every upload returns a URL under the fixed
storage domain, every URL the form handlers write — the product image batch
handler and the per-variant image handler — uses the CDN host and never the
raw storage host, because each returned URL is rewritten by literal string
substitution before being written into the form. -/
theorem uploaded_urls_rewritten_to_cdn (files : List String) (vars : List VariantIn)
    (index : Nat) (u : String)
    (hf : ∀ f ∈ files, storageHost.data <+: f.data)
    (hu : storageHost.data <+: u.data) :
    (∀ im ∈ onProductImageChange files,
        cdnHost.data <+: im.src.data ∧ ¬ storageHost.data <+: im.src.data)
    ∧ (∀ v ∈ onVariantImageChange vars index u,
        v ∈ vars
        ∨ (cdnHost.data <+: v.imageSrc.data
            ∧ ¬ storageHost.data <+: v.imageSrc.data)) := by
  constructor
  · intro im him
    unfold onProductImageChange at him
    obtain ⟨f, hfmem, hfe⟩ := List.mem_map.mp him
    rw [← hfe]
    exact cdnRewrite_spec f (hf f hfmem)
  · intro v hv
    rcases setVariantImage_mem vars index (cdnRewrite u) v hv with h1 | h1
    · exact Or.inl h1
    · right
      rw [h1]
      exact cdnRewrite_spec u hu

/-- C7: in a two-entry `addVariant` batch whose first entry is an update
carrying an id that matches no variant row and whose second entry has the add
flag set, the second entry's create still persists and the failing first
entry leaves no trace: entries are processed independently, with no rollback
or cross-entry atomicity. -/
theorem addVariant_valid_create_persists (s : Store) (e1 e2 : VariantEntry)
    (h1 : e1.add = false)
    (h1x : s.variants.any (fun v => v.id == e1.id) = false)
    (h2 : e2.add = true) :
    (addVariant s [e1, e2]).variants
      = s.variants
        ++ [Variant.mk (toString s.nextId) e2.name e2.imageSrc "color" e2.productId] := by
  have he1 : applyVariantEntry s e1 = s := by
    simp [applyVariantEntry, h1, h1x]
  show (applyVariantEntry (applyVariantEntry s e1) e2).variants = _
  rw [he1]
  simp [applyVariantEntry, h2]

/-- C8 counterexample: a two-file selection handed to the add-more-images
handler appends only the first file's rewritten URL; the second file of the
selection is never uploaded or appended, refuting the claim that the sequence
is applied to every file of the selection. -/
theorem handleAddMoreImages_drops_second_file :
    handleAddMoreImages [] [uploadedA, uploadedB]
        = [ImageIn.mk (cdnRewrite uploadedA)]
    ∧ ImageIn.mk (cdnRewrite uploadedB) ∉ handleAddMoreImages [] [uploadedA, uploadedB] := by
  exact ⟨rfl, by decide⟩

/-- C8 amended: for a non-empty selection in the add-more-images picker, only
the FIRST selected file is uploaded, its URL rewritten to the CDN host, and
the result appended to the existing image URL list rather than replacing it;
the remaining files of the selection are ignored. -/
theorem handleAddMoreImages_appends_first_only (current : List ImageIn)
    (u : String) (rest : List String) (hu : storageHost.data <+: u.data) :
    handleAddMoreImages current (u :: rest)
      = current ++ [ImageIn.mk (cdnRewrite u)]
    ∧ cdnHost.data <+: (cdnRewrite u).data
    ∧ ¬ storageHost.data <+: (cdnRewrite u).data :=
  ⟨rfl, cdnRewrite_spec u hu⟩

/-- C9: the banner read never propagates a store-level error: a failing
lookup is caught and suppressed with `null` returned, and a successful lookup
returns the settings row found for the `"banner"` key (or `null` when the
row is absent). -/
theorem getBannerText_swallows_errors (e : String) (s : Store) :
    getBannerText (Except.error e) = none
    ∧ getBannerText (Except.ok (settingsFindUnique s "banner"))
        = settingsFindUnique s "banner" :=
  ⟨rfl, rfl⟩

/-- C10: `toggleStatus` and `toggleCategoryStatus` return the entity record
as fetched before the flip — the returned `isActive` is the pre-toggle value,
while the stored row afterwards carries its negation. -/
theorem toggle_returns_pre_toggle_record (s : Store) (pid cid : String)
    (p : Product) (c : Category)
    (hp : findProduct s pid = some p) (hc : findCategory s cid = some c) :
    (∃ s1, toggleStatus s pid = some (s1, p)
        ∧ (findProduct s1 pid).map Product.isActive = some (!p.isActive))
    ∧ (∃ s2, toggleCategoryStatus s cid = some (s2, c)
        ∧ (findCategory s2 cid).map Category.isActive = some (!c.isActive)) := by
  constructor
  · obtain ⟨s1, ht, hf, _, _⟩ := toggleStatus_eq s pid p hp
    exact ⟨s1, ht, by rw [hf]; rfl⟩
  · obtain ⟨s2, ht, hf⟩ := toggleCategoryStatus_eq s cid c hc
    exact ⟨s2, ht, by rw [hf]; rfl⟩

/-! Witnesses: each hypothesis-carrying claim theorem instantiated at a
concrete input with every hypothesis discharged by evaluation. -/

/-- A concrete scalar update input aimed at `sampleProduct1`. -/
def sampleUpdateIn : UpdateProductIn :=
  { id := "p1", name := "Cup", price := "12.5", weight := "0.3",
    description := "a cup" }

/-- A batch entry whose update id matches no variant row. -/
def sampleEntryBad : VariantEntry :=
  { id := "zz", name := "Blue",
    imageSrc := "https://d1sah57fmj9klu.cloudfront.net/blue.png",
    add := false, productId := "p1" }

/-- A batch entry with the add flag set. -/
def sampleEntryAdd : VariantEntry :=
  { id := "", name := "Green",
    imageSrc := "https://d1sah57fmj9klu.cloudfront.net/green.png",
    add := true, productId := "p1" }

/-- Witness for the attach-category theorem at the concrete store. -/
theorem attachProductToCategory_singleton_witness :
    findProduct sampleStore "p1" = some sampleProduct1
    ∧ findCategory sampleStore "c2" = some sampleCategory2
    ∧ ∃ s1, attachProductToCategory sampleStore "p1" "c2" = some s1
        ∧ (findProduct s1 "p1").map Product.categoryIds = some ["c2"] :=
  ⟨by decide, by decide,
    attachProductToCategory_singleton sampleStore "p1" "c2" sampleProduct1
      sampleCategory2 (by decide) (by decide)⟩

/-- Witness for the double-toggle theorem at the concrete store. -/
theorem toggleStatus_twice_restores_witness :
    findProduct sampleStore "p1" = some sampleProduct1
    ∧ ∃ s1 r1 s2 r2,
        toggleStatus sampleStore "p1" = some (s1, r1)
        ∧ toggleStatus s1 "p1" = some (s2, r2)
        ∧ (findProduct s2 "p1").map Product.isActive = some sampleProduct1.isActive :=
  ⟨by decide,
    toggleStatus_twice_restores sampleStore "p1" sampleProduct1 (by decide)⟩

/-- Witness for the scalar-only update theorem at the concrete store. -/
theorem updateProduct_scalar_only_witness :
    findProduct sampleStore sampleUpdateIn.id = some sampleProduct1
    ∧ ∃ s1 q, updateProduct sampleStore sampleUpdateIn = some s1
        ∧ findProduct s1 sampleUpdateIn.id = some q
        ∧ q.name = sampleUpdateIn.name
        ∧ q.price = parseFloat sampleUpdateIn.price
        ∧ q.weight = parseFloat sampleUpdateIn.weight
        ∧ q.description = sampleUpdateIn.description
        ∧ q.images = sampleProduct1.images
        ∧ q.categoryIds = sampleProduct1.categoryIds
        ∧ q.isActive = sampleProduct1.isActive
        ∧ s1.variants = sampleStore.variants :=
  ⟨by decide,
    updateProduct_scalar_only sampleStore sampleUpdateIn sampleProduct1 (by decide)⟩

/-- Witness for the CDN-rewrite theorem at a concrete upload batch. -/
theorem uploaded_urls_rewritten_to_cdn_witness :
    (∀ f ∈ [uploadedA], storageHost.data <+: f.data)
    ∧ storageHost.data <+: uploadedB.data
    ∧ ((∀ im ∈ onProductImageChange [uploadedA],
          cdnHost.data <+: im.src.data ∧ ¬ storageHost.data <+: im.src.data)
      ∧ (∀ v ∈ onVariantImageChange [VariantIn.mk "Red" ""] 0 uploadedB,
          v ∈ [VariantIn.mk "Red" ""]
          ∨ (cdnHost.data <+: v.imageSrc.data
              ∧ ¬ storageHost.data <+: v.imageSrc.data))) :=
  ⟨by decide, by decide,
    uploaded_urls_rewritten_to_cdn [uploadedA] [VariantIn.mk "Red" ""] 0 uploadedB
      (by decide) (by decide)⟩

/-- Witness for the batch-variant non-atomicity theorem at the concrete
store. -/
theorem addVariant_valid_create_persists_witness :
    sampleEntryBad.add = false
    ∧ sampleStore.variants.any (fun v => v.id == sampleEntryBad.id) = false
    ∧ sampleEntryAdd.add = true
    ∧ (addVariant sampleStore [sampleEntryBad, sampleEntryAdd]).variants
        = sampleStore.variants
          ++ [Variant.mk (toString sampleStore.nextId) sampleEntryAdd.name
                sampleEntryAdd.imageSrc "color" sampleEntryAdd.productId] :=
  ⟨rfl, by decide, rfl,
    addVariant_valid_create_persists sampleStore sampleEntryBad sampleEntryAdd
      rfl (by decide) rfl⟩

/-- Witness for the amended add-more-images theorem at a concrete two-file
selection. -/
theorem handleAddMoreImages_appends_first_only_witness :
    storageHost.data <+: uploadedA.data
    ∧ (handleAddMoreImages [ImageIn.mk "kept"] (uploadedA :: [uploadedB])
        = [ImageIn.mk "kept"] ++ [ImageIn.mk (cdnRewrite uploadedA)]
      ∧ cdnHost.data <+: (cdnRewrite uploadedA).data
      ∧ ¬ storageHost.data <+: (cdnRewrite uploadedA).data) :=
  ⟨by decide,
    handleAddMoreImages_appends_first_only [ImageIn.mk "kept"] uploadedA
      [uploadedB] (by decide)⟩

/-- Witness for the pre-toggle return-value theorem at the concrete store. -/
theorem toggle_returns_pre_toggle_record_witness :
    findProduct sampleStore "p1" = some sampleProduct1
    ∧ findCategory sampleStore "c1" = some sampleCategory1
    ∧ ((∃ s1, toggleStatus sampleStore "p1" = some (s1, sampleProduct1)
          ∧ (findProduct s1 "p1").map Product.isActive
              = some (!sampleProduct1.isActive))
      ∧ (∃ s2, toggleCategoryStatus sampleStore "c1" = some (s2, sampleCategory1)
          ∧ (findCategory s2 "c1").map Category.isActive
              = some (!sampleCategory1.isActive))) :=
  ⟨by decide, by decide,
    toggle_returns_pre_toggle_record sampleStore "p1" "c1" sampleProduct1
      sampleCategory1 (by decide) (by decide)⟩

end ECommerce
